import Mathlib

/-!
# Verification of the pertpy perturbation comparison metrics engine

Shallow embedding of `pertpy/tools/_metrics_3g.py` (`compare_de`,
`compare_class`, `compare_knn`, `compare_dist`) and of the `Distance`
constructor contract, with theorems settling the specification claims.

Modelling conventions:
* A numpy 2-D array is a `Mat`: explicit row/column counts plus an entry
  function into `ℚ` (real arithmetic is modelled exactly over rationals).
* External library calls (the metric registry's `metric_fct`, the sklearn
  classifier, the pynndescent ANN index, scanpy's `rank_genes_groups`,
  pandas `corr`) are abstracted as function parameters: the embedded
  routines are faithful to the source for everything the source itself
  computes.
* Fallible Python operations are modelled with `Except PyErr`.  A bare
  Python `assert` raises `AssertionError` with no message, modelled as
  `PyErr.assertionError none`; `float` division by zero raises
  `ZeroDivisionError`; `raise ValueError(msg)` is `PyErr.valueError msg`.
* sklearn's `MinMaxScaler` (used only in `compare_dist`'s "scaled" branch)
  is modelled as the total per-column min-max transform it computes,
  including its handle-zeros rule (zero feature range divides by 1).
-/

namespace PertpyMetrics

/-- A dense 2-D numeric array: `shape = (nrows, ncols)`, entries in `ℚ`. -/
structure Mat where
  nrows : Nat
  ncols : Nat
  entry : Nat → Nat → ℚ

/-- Python exceptions that the embedded code can raise. -/
inductive PyErr where
  /-- A failed `assert`; a bare `assert` carries no message (`none`). -/
  | assertionError (msg : Option String)
  /-- An explicit `raise ValueError(msg)`. -/
  | valueError (msg : String)
  /-- Division of Python floats by zero. -/
  | zeroDivisionError
  /-- Out-of-range fancy indexing into a numpy array. -/
  | indexError
  deriving DecidableEq

/-- Python float division, fallible at a zero denominator. -/
def pydiv (a b : ℚ) : Except PyErr ℚ :=
  if b = 0 then .error .zeroDivisionError else .ok (a / b)

/-- `np.vstack((A, B))`: stack two matrices row-wise. -/
def vstack (A B : Mat) : Mat where
  nrows := A.nrows + B.nrows
  ncols := A.ncols
  entry := fun i j => if i < A.nrows then A.entry i j else B.entry (i - A.nrows) j

/-- The values of column `j` of `m`, top to bottom. -/
def colVals (m : Mat) (j : Nat) : List ℚ :=
  (List.range m.nrows).map (fun i => m.entry i j)

/-- Minimum of a list of rationals (`0` for the empty list). -/
def listMin : List ℚ → ℚ
  | [] => 0
  | x :: xs => xs.foldl min x

/-- Maximum of a list of rationals (`0` for the empty list). -/
def listMax : List ℚ → ℚ
  | [] => 0
  | x :: xs => xs.foldl max x

/-- sklearn `MinMaxScaler().fit(fitData).transform(x)` with the default
feature range `(0, 1)`: per column, `(v - min) / (max - min)`, where a zero
range divides by `1` instead (sklearn's handle-zeros rule). -/
def minmax_transform (fitData : Mat) (x : Mat) : Mat where
  nrows := x.nrows
  ncols := x.ncols
  entry := fun i j =>
    let lo := listMin (colVals fitData j)
    let range := listMax (colVals fitData j) - lo
    if range = 0 then x.entry i j - lo else (x.entry i j - lo) / range

/-- Embedding of `compare_dist` (`_metrics_3g.py:163-196`).  The resolved
`Distance(metric).metric_fct` with its keyword arguments is abstracted as the
parameter `metric_fct`; `fit_to_pert_and_ctrl` is the `_fit_to_pert_and_ctrl`
flag.  `mode == "simple"` leaves the inputs untouched; `mode == "scaled"`
min-max-transforms `pred` and `pert` (but not `ctrl`); any other mode raises
`ValueError`.  Finally `d1 / d2` is returned, unguarded against `d2 = 0`. -/
def compare_dist (metric_fct : Mat → Mat → ℚ) (pert pred ctrl : Mat)
    (mode : String) (fit_to_pert_and_ctrl : Bool) : Except PyErr ℚ :=
  if mode = "simple" then
    pydiv (metric_fct pert pred) (metric_fct ctrl pred)
  else if mode = "scaled" then
    let fitData := if fit_to_pert_and_ctrl then vstack pert ctrl else ctrl
    let pred2 := minmax_transform fitData pred
    let pert2 := minmax_transform fitData pert
    pydiv (metric_fct pert2 pred2) (metric_fct ctrl pred2)
  else
    .error (.valueError ("Unknown mode " ++ mode ++ ". Please choose simple or scaled."))

/-- The all-zero matrix of a given shape. -/
def zeroMat (r c : Nat) : Mat where
  nrows := r
  ncols := c
  entry := fun _ _ => 0

/-- The all-one matrix of a given shape. -/
def oneMat (r c : Nat) : Mat where
  nrows := r
  ncols := c
  entry := fun _ _ => 1

/-- A concrete metric used in witnesses: absolute difference of the two
matrices' `(0,0)` entries. -/
def diffMetric (A B : Mat) : ℚ :=
  |A.entry 0 0 - B.entry 0 0|

theorem compare_dist_simple (m : Mat → Mat → ℚ) (pert pred ctrl : Mat) (f : Bool) :
    compare_dist m pert pred ctrl "simple" f =
      pydiv (m pert pred) (m ctrl pred) := by
  simp [compare_dist]

theorem compare_dist_scaled (m : Mat → Mat → ℚ) (pert pred ctrl : Mat) (f : Bool) :
    compare_dist m pert pred ctrl "scaled" f =
      pydiv
        (m (minmax_transform (if f then vstack pert ctrl else ctrl) pert)
           (minmax_transform (if f then vstack pert ctrl else ctrl) pred))
        (m ctrl (minmax_transform (if f then vstack pert ctrl else ctrl) pred)) := by
  simp [compare_dist]

theorem pydiv_ne_valueError (a b : ℚ) (s : String) :
    pydiv a b ≠ .error (.valueError s) := by
  unfold pydiv
  split <;> simp

/-- C1: with `mode = "simple"`, `compare_dist` returns exactly
`metric(pert, pred) / metric(ctrl, pred)` with no transformation applied to
any input; in particular, when `pred = pert` and the metric has zero
self-distance, the result is `0`. -/
theorem compare_dist_simple_is_plain_ratio
    (m : Mat → Mat → ℚ) (pert pred ctrl : Mat) (f : Bool)
    (_hc1 : pert.ncols = pred.ncols) (_hc2 : ctrl.ncols = pred.ncols)
    (hd2 : m ctrl pred ≠ 0) :
    compare_dist m pert pred ctrl "simple" f = .ok (m pert pred / m ctrl pred) ∧
    (pred = pert → m pert pert = 0 →
      compare_dist m pert pred ctrl "simple" f = .ok 0) := by
  constructor
  · simp [compare_dist, pydiv, hd2]
  · intro hpp hself
    subst hpp
    simp [compare_dist, pydiv, hd2, hself]

/-- Witness for C1: `pert = pred = 0`, `ctrl = 1`, the `diffMetric`. -/
theorem compare_dist_simple_is_plain_ratio_witness :
    compare_dist diffMetric (zeroMat 100 20) (zeroMat 100 20) (oneMat 100 20)
      "simple" false = .ok 0 :=
  (compare_dist_simple_is_plain_ratio diffMetric (zeroMat 100 20) (zeroMat 100 20)
      (oneMat 100 20) false rfl rfl
      (by norm_num [diffMetric, zeroMat, oneMat])).2 rfl
      (by norm_num [diffMetric, zeroMat])

/-- C10: the final `d1 / d2` of `compare_dist` is not guarded: whenever the
resolved metric returns `0` on `(ctrl, pred)` the division fails and the
failure propagates to the caller instead of a normal return value. -/
theorem compare_dist_zero_denominator_fails
    (m : Mat → Mat → ℚ) (pert pred ctrl : Mat) (f : Bool)
    (h : m ctrl pred = 0) :
    compare_dist m pert pred ctrl "simple" f = .error .zeroDivisionError := by
  simp [compare_dist, pydiv, h]

/-- Witness for C10: `pred` identical to `ctrl` under a self-distance-zero
metric reaches the division failure. -/
theorem compare_dist_zero_denominator_fails_witness :
    compare_dist diffMetric (oneMat 3 2) (zeroMat 3 2) (zeroMat 3 2)
      "simple" false = .error .zeroDivisionError :=
  compare_dist_zero_denominator_fails diffMetric (oneMat 3 2) (zeroMat 3 2)
    (zeroMat 3 2) false (by norm_num [diffMetric, zeroMat])

/-- C7: `compare_dist` raises a `ValueError` (the configuration error) if and
only if `mode` is neither `"simple"` nor `"scaled"`, and in that case it
returns no result value. -/
theorem compare_dist_unknown_mode_iff
    (m : Mat → Mat → ℚ) (pert pred ctrl : Mat) (mode : String) (f : Bool) :
    ((∃ s, compare_dist m pert pred ctrl mode f = .error (.valueError s)) ↔
      (mode ≠ "simple" ∧ mode ≠ "scaled")) ∧
    ((mode ≠ "simple" ∧ mode ≠ "scaled") →
      ∀ r, compare_dist m pert pred ctrl mode f ≠ .ok r) := by
  by_cases h1 : mode = "simple"
  · subst h1
    refine ⟨⟨?_, ?_⟩, ?_⟩
    · rintro ⟨s, hs⟩
      rw [compare_dist_simple] at hs
      exact absurd hs (pydiv_ne_valueError _ _ _)
    · rintro ⟨hns, _⟩
      exact absurd rfl hns
    · rintro ⟨hns, _⟩
      exact absurd rfl hns
  · by_cases h2 : mode = "scaled"
    · subst h2
      refine ⟨⟨?_, ?_⟩, ?_⟩
      · rintro ⟨s, hs⟩
        rw [compare_dist_scaled] at hs
        exact absurd hs (pydiv_ne_valueError _ _ _)
      · rintro ⟨_, hns⟩
        exact absurd rfl hns
      · rintro ⟨_, hns⟩
        exact absurd rfl hns
    · have he : compare_dist m pert pred ctrl mode f =
          .error (.valueError
            ("Unknown mode " ++ mode ++ ". Please choose simple or scaled.")) := by
        unfold compare_dist
        rw [if_neg h1, if_neg h2]
      refine ⟨⟨fun _ => ⟨h1, h2⟩, fun _ => ⟨_, he⟩⟩, fun _ r hr => ?_⟩
      rw [he] at hr
      exact absurd hr (by simp)

/-- Witness for C7: the unknown mode `"bogus"` produces the `ValueError` and
no `.ok` result; mode `"simple"` produces no `ValueError`. -/
theorem compare_dist_unknown_mode_iff_witness :
    (∃ s, compare_dist diffMetric (zeroMat 1 1) (zeroMat 1 1) (oneMat 1 1)
        "bogus" false = .error (.valueError s)) ∧
    ¬ (∃ s, compare_dist diffMetric (zeroMat 1 1) (zeroMat 1 1) (oneMat 1 1)
        "simple" false = .error (.valueError s)) := by
  constructor
  · exact (compare_dist_unknown_mode_iff diffMetric (zeroMat 1 1) (zeroMat 1 1)
      (oneMat 1 1) "bogus" false).1.mpr ⟨by decide, by decide⟩
  · intro hs
    have := (compare_dist_unknown_mode_iff diffMetric (zeroMat 1 1) (zeroMat 1 1)
      (oneMat 1 1) "simple" false).1.mp hs
    exact this.1 rfl

/-! ## compare_class (`_metrics_3g.py:69-98`) -/

/-- An sklearn-style classifier, abstracted to its minimal capability set:
`fit(data, labels)` produces a fitted state of type `F`, and
`score(fitted, data, labels)` returns the mean accuracy. -/
structure Classifier (F : Type) where
  fit : Mat → List String → F
  score : F → Mat → List String → ℚ

/-- The training labels of `compare_class`:
`labels = np.full(n_xc, "ctrl"); labels[:n_x] = "comp"`. -/
def labels_xc (n_x n_xc : Nat) : List String :=
  (List.range n_xc).map (fun i => if i < n_x then "comp" else "ctrl")

/-- Embedding of `compare_class` (`_metrics_3g.py:69-98`): assert equal column
counts, fit the classifier on `vstack(X, C)` against "comp"/"ctrl" labels,
then return `min(1.0, score(Y, "comp"*) / score(X, labels[:n_x]))`.  The
division of Python floats is unguarded (`pydiv`). -/
def compare_class {F : Type} (clf : Classifier F) (X Y C : Mat) : Except PyErr ℚ :=
  if X.ncols = Y.ncols ∧ Y.ncols = C.ncols then
    let n_x := X.nrows
    let n_xc := n_x + C.nrows
    let data := vstack X C
    let labels := labels_xc n_x n_xc
    let fitted := clf.fit data labels
    let score_y := clf.score fitted Y (List.replicate Y.nrows "comp")
    let score_x := clf.score fitted X (labels.take n_x)
    (pydiv score_y score_x).map (fun r => min 1 r)
  else
    .error (.assertionError none)

theorem labels_xc_take (n_x n_c : Nat) :
    (labels_xc n_x (n_x + n_c)).take n_x = List.replicate n_x "comp" := by
  unfold labels_xc
  rw [← List.map_take, List.take_range, Nat.min_eq_left (Nat.le_add_right _ _)]
  rw [List.eq_replicate_iff]
  refine ⟨by simp, ?_⟩
  intro b hb
  obtain ⟨i, hi, rfl⟩ := List.mem_map.mp hb
  rw [if_pos (List.mem_range.mp hi)]

/-- C3: when the classifier's self-accuracy on `X` is strictly positive and
both scores are accuracies in `[0,1]`, `compare_class` returns exactly
`min(1.0, score(Y, "comp"*) / score(X, "comp"*))`, which lies in `[0,1]`. -/
theorem compare_class_normalized_score {F : Type} (clf : Classifier F)
    (X Y C : Mat) (sY sX : ℚ)
    (hc1 : X.ncols = Y.ncols) (hc2 : Y.ncols = C.ncols)
    (hY : sY = clf.score (clf.fit (vstack X C) (labels_xc X.nrows (X.nrows + C.nrows)))
      Y (List.replicate Y.nrows "comp"))
    (hX : sX = clf.score (clf.fit (vstack X C) (labels_xc X.nrows (X.nrows + C.nrows)))
      X (List.replicate X.nrows "comp"))
    (hX0 : 0 < sX) (_hX1 : sX ≤ 1) (hY0 : 0 ≤ sY) (_hY1 : sY ≤ 1) :
    compare_class clf X Y C = .ok (min 1 (sY / sX)) ∧
    0 ≤ min 1 (sY / sX) ∧ min 1 (sY / sX) ≤ 1 := by
  refine ⟨?_, le_min zero_le_one (div_nonneg hY0 hX0.le), min_le_left _ _⟩
  unfold compare_class
  rw [if_pos ⟨hc1, hc2⟩]
  simp only [labels_xc_take, ← hY, ← hX]
  unfold pydiv
  rw [if_neg hX0.ne']
  rfl

/-- A constant classifier used in witnesses: every score is `1/2`. -/
def constClf : Classifier Unit where
  fit := fun _ _ => ()
  score := fun _ _ _ => 1/2

/-- Witness for C3 at a concrete classifier and concrete matrices. -/
theorem compare_class_normalized_score_witness :
    compare_class constClf (zeroMat 2 1) (zeroMat 2 1) (oneMat 2 1) =
      .ok (min 1 ((1/2 : ℚ) / (1/2 : ℚ))) ∧
    0 ≤ min 1 ((1/2 : ℚ) / (1/2 : ℚ)) ∧ min 1 ((1/2 : ℚ) / (1/2 : ℚ)) ≤ 1 :=
  compare_class_normalized_score constClf (zeroMat 2 1) (zeroMat 2 1) (oneMat 2 1)
    (1/2) (1/2) rfl rfl rfl rfl (by norm_num) (by norm_num) (by norm_num) (by norm_num)

/-! ### Lexicographic string order

numpy sorts string arrays lexicographically by code point (`np.unique`,
`np.argsort`).  `pyLe` is that order, defined by an executable comparison on
the character lists (Mathlib's `String` order is the same order but its
`Decidable` instance does not reduce in the kernel). -/

/-- Lexicographic comparison of two character lists by code point. -/
def charListLe : List Char → List Char → Bool
  | [], _ => true
  | _ :: _, [] => false
  | a :: as, b :: bs =>
      if a < b then true
      else if b < a then false
      else charListLe as bs

/-- numpy's lexicographic order on strings. -/
def pyLe (s t : String) : Prop := charListLe s.data t.data = true

instance pyLeDec : DecidableRel pyLe :=
  fun s t => decidable_of_iff (charListLe s.data t.data = true) Iff.rfl

theorem charListLe_total : ∀ as bs, charListLe as bs = true ∨ charListLe bs as = true := by
  intro as
  induction as with
  | nil => intro bs; left; rfl
  | cons a as ih =>
      intro bs
      cases bs with
      | nil => right; rfl
      | cons b bs =>
          by_cases hab : a < b
          · left
            simp [charListLe, hab]
          · by_cases hba : b < a
            · right
              simp [charListLe, hba]
            · rcases ih bs with h | h
              · left
                simp [charListLe, hab, hba, h]
              · right
                simp [charListLe, hab, hba, h]

theorem charListLe_trans : ∀ as bs cs, charListLe as bs = true →
    charListLe bs cs = true → charListLe as cs = true := by
  intro as
  induction as with
  | nil => intro bs cs _ _; rfl
  | cons a as ih =>
      intro bs cs h1 h2
      cases bs with
      | nil => simp [charListLe] at h1
      | cons b bs =>
          cases cs with
          | nil => simp [charListLe] at h2
          | cons c cs =>
              simp only [charListLe] at h1 h2 ⊢
              by_cases hab : a < b
              · by_cases hbc : b < c
                · simp [lt_trans hab hbc]
                · by_cases hcb : c < b
                  · simp [hbc, hcb] at h2
                  · have hbceq : b = c := le_antisymm (not_lt.mp hcb) (not_lt.mp hbc)
                    subst hbceq
                    simp [hab]
              · by_cases hba : b < a
                · simp [hab, hba] at h1
                · have habeq : a = b := le_antisymm (not_lt.mp hba) (not_lt.mp hab)
                  subst habeq
                  by_cases hac : a < c
                  · simp [hac]
                  · by_cases hca : c < a
                    · simp [hac, hca] at h2
                    · have haceq : a = c := le_antisymm (not_lt.mp hca) (not_lt.mp hac)
                      subst haceq
                      simp only [lt_irrefl, if_false] at h1 h2 ⊢
                      exact ih _ _ h1 h2

theorem charListLe_antisymm : ∀ as bs, charListLe as bs = true →
    charListLe bs as = true → as = bs := by
  intro as
  induction as with
  | nil =>
      intro bs _ h2
      cases bs with
      | nil => rfl
      | cons b bs => simp [charListLe] at h2
  | cons a as ih =>
      intro bs h1 h2
      cases bs with
      | nil => simp [charListLe] at h1
      | cons b bs =>
          simp only [charListLe] at h1 h2
          by_cases hab : a < b
          · have hba : ¬ b < a := lt_asymm hab
            simp [hab, hba] at h2
          · by_cases hba : b < a
            · simp [hab, hba] at h1
            · have : a = b := le_antisymm (not_lt.mp hba) (not_lt.mp hab)
              subst this
              simp only [lt_irrefl, if_false] at h1 h2
              rw [ih bs h1 h2]

instance pyLeTotal : IsTotal String pyLe :=
  ⟨fun s t => charListLe_total s.data t.data⟩

instance pyLeTrans : IsTrans String pyLe :=
  ⟨fun a b c => charListLe_trans a.data b.data c.data⟩

instance pyLeAntisymm : IsAntisymm String pyLe :=
  ⟨fun a b h1 h2 => by
    cases a
    cases b
    exact congrArg String.mk (charListLe_antisymm _ _ h1 h2)⟩

/-! ## compare_knn (`_metrics_3g.py:101-160`) -/

/-- A pynndescent-style approximate-nearest-neighbor engine, abstracted:
`query index_data n_neighbors random_state n_jobs queryData k` returns, for
each row of `queryData`, a list of row indices into `index_data` (the code
builds `NNDescent(index_data, n_neighbors=max(50, n_neighbors), random_state,
n_jobs)` and then calls `index.query(Y, k=n_neighbors)[0]`). -/
structure ANN where
  query : Mat → Nat → Nat → Nat → Mat → Nat → List (List Nat)

/-- The shape precondition asserted by `compare_knn` (lines 123-125). -/
def knnShape (X Y : Mat) (C : Option Mat) : Prop :=
  X.ncols = Y.ncols ∧ ∀ c ∈ C, X.ncols = c.ncols

instance knnShapeDec (X Y : Mat) (C : Option Mat) : Decidable (knnShape X Y C) :=
  match C with
  | none => decidable_of_iff (X.ncols = Y.ncols) (by simp [knnShape])
  | some c => decidable_of_iff (X.ncols = Y.ncols ∧ X.ncols = c.ncols) (by simp [knnShape])

/-- The reference point cloud of `compare_knn` (lines 129-133): `Y∪X` when no
control is given, else `Y∪X∪C` or `X∪C` depending on `use_Y_knn`. -/
def knnIndexData (X Y : Mat) (C : Option Mat) (use_Y_knn : Bool) : Mat :=
  match C with
  | none => vstack Y X
  | some c => if use_Y_knn then vstack (vstack Y X) c else vstack X c

/-- `C.shape[0]` when a control is supplied, `0` otherwise. -/
def knnNC (C : Option Mat) : Nat :=
  match C with
  | none => 0
  | some c => c.nrows

/-- The per-row labels of the reference cloud (lines 138-143):
`np.full(N, "comp")`, then `labels[:n_y] = "siml"` when Y is in the index and
`labels[-n_c:] = "ctrl"` when C is in the index (in that order, so "ctrl"
wins on overlap; note Python's `labels[-0:]` selects the whole array). -/
def knnLabels (N n_y n_c : Nat) (y_in c_in : Bool) : List String :=
  (List.range N).map (fun i =>
    if c_in ∧ (n_c = 0 ∨ N - n_c ≤ i) then "ctrl"
    else if y_in ∧ i < n_y then "siml"
    else "comp")

/-- The group-key list (lines 137-144): `["comp"]`, plus `"siml"` when Y is in
the index, plus `"ctrl"` when C is in the index. -/
def labelGroups (y_in c_in : Bool) : List String :=
  "comp" :: ((if y_in then ["siml"] else []) ++ (if c_in then ["ctrl"] else []))

/-- `np.unique` of a list of strings: distinct values, sorted
lexicographically. -/
def npUniqueSorted (l : List String) : List String :=
  List.insertionSort pyLe l.dedup

/-- Python `d[k] = v` on a dict rendered as an ordered association list:
overwrite in place when the key exists, append otherwise. -/
def updDict (d : List (String × ℚ)) (k : String) (v : ℚ) : List (String × ℚ) :=
  if d.any (fun p => decide (p.1 = k)) then
    d.map (fun p => if p.1 = k then (k, v) else p)
  else d ++ [(k, v)]

/-- The reference labels of one `compare_knn` run (lines 135-144). -/
def knnRunLabels (X Y : Mat) (C : Option Mat) (u : Bool) : List String :=
  knnLabels (knnIndexData X Y C u).nrows Y.nrows (knnNC C) (u || C.isNone) C.isSome

/-- The flattened neighbor-index matrix of one `compare_knn` run
(lines 146-152): the ANN engine is built with `max(50, n_neighbors)` internal
neighbors and queried with every row of `Y` for `n_neighbors` neighbors. -/
def knnIdxFlat (ann : ANN) (X Y : Mat) (C : Option Mat) (n : Nat) (u : Bool)
    (rs nj : Nat) : List Nat :=
  (ann.query (knnIndexData X Y C u) (max 50 n) rs nj Y n).flatten

/-- All neighbor indices of the run are in range: `labels[indices]` raises no
numpy `IndexError`. -/
def knnValid (ann : ANN) (X Y : Mat) (C : Option Mat) (n : Nat) (u : Bool)
    (rs nj : Nat) : Prop :=
  (knnIdxFlat ann X Y C n u rs nj).all
    (fun i => decide (i < (knnRunLabels X Y C u).length)) = true

instance knnValidDec (ann : ANN) (X Y : Mat) (C : Option Mat) (n : Nat)
    (u : Bool) (rs nj : Nat) : Decidable (knnValid ann X Y C n u rs nj) := by
  unfold knnValid
  infer_instance

/-- The gathered neighbor labels `labels[indices]` of one `compare_knn` run. -/
def knnFlat (ann : ANN) (X Y : Mat) (C : Option Mat) (n : Nat) (u : Bool)
    (rs nj : Nat) : List String :=
  (knnIdxFlat ann X Y C n u rs nj).map (fun i => (knnRunLabels X Y C u).getD i "")

/-- Embedding of `compare_knn` (`_metrics_3g.py:101-160`): assert shapes,
assemble the reference cloud and its labels, query the ANN engine with every
row of `Y`, gather the neighbor labels (an out-of-range neighbor index would
be a numpy `IndexError`), run `np.unique(..., return_counts=True)`, normalize
by the total count, and fill a dict that starts at `0.0` for every group. -/
def compare_knn (ann : ANN) (X Y : Mat) (C : Option Mat) (n_neighbors : Nat)
    (use_Y_knn : Bool) (random_state : Nat) (n_jobs : Nat) :
    Except PyErr (List (String × ℚ)) :=
  if knnShape X Y C then
    if knnValid ann X Y C n_neighbors use_Y_knn random_state n_jobs then
      let flat := knnFlat ann X Y C n_neighbors use_Y_knn random_state n_jobs
      let label_groups := labelGroups (use_Y_knn || C.isNone) C.isSome
      let counts0 := label_groups.map (fun g => (g, (0 : ℚ)))
      .ok ((npUniqueSorted flat).foldl
        (fun acc g => updDict acc g ((flat.count g : ℚ) / flat.length)) counts0)
    else
      .error .indexError
  else
    .error (.assertionError none)

theorem updDict_map_apply (groups : List String) (f : String → ℚ) (k : String)
    (v : ℚ) (hk : k ∈ groups) :
    updDict (groups.map fun g => (g, f g)) k v
      = groups.map (fun g => (g, if g = k then v else f g)) := by
  unfold updDict
  rw [if_pos]
  · rw [List.map_map]
    refine List.map_congr_left ?_
    intro g _
    by_cases h : g = k
    · subst h
      simp
    · simp [h]
  · rw [List.any_eq_true]
    exact ⟨(k, f k), List.mem_map_of_mem _ hk, by simp⟩

theorem foldl_updDict_char (cnt : String → ℚ) (groups : List String) :
    ∀ (L : List String) (f : String → ℚ), (∀ g ∈ L, g ∈ groups) →
      L.foldl (fun acc g => updDict acc g (cnt g)) (groups.map fun g => (g, f g))
        = groups.map (fun g => (g, if g ∈ L then cnt g else f g)) := by
  intro L
  induction L with
  | nil =>
      intro f _
      simp
  | cons a L ih =>
      intro f hsub
      rw [List.foldl_cons, updDict_map_apply groups f a (cnt a) (hsub a (by simp)),
        ih _ (fun g hg => hsub g (by simp [hg]))]
      refine List.map_congr_left ?_
      intro g _
      by_cases h1 : g ∈ L
      · simp [h1]
      · by_cases h2 : g = a
        · subst h2
          simp [h1]
        · simp [h1, h2]

theorem knnLabels_mem {N n_y n_c : Nat} {y_in c_in : Bool} {s : String}
    (hs : s ∈ knnLabels N n_y n_c y_in c_in) : s ∈ labelGroups y_in c_in := by
  unfold knnLabels at hs
  obtain ⟨i, _, rfl⟩ := List.mem_map.mp hs
  by_cases h1 : (c_in : Prop) ∧ (n_c = 0 ∨ N - n_c ≤ i)
  · rw [if_pos h1]
    simp [labelGroups, h1.1]
  · rw [if_neg h1]
    by_cases h2 : (y_in : Prop) ∧ i < n_y
    · rw [if_pos h2]
      simp [labelGroups, h2.1]
    · rw [if_neg h2]
      simp [labelGroups]

theorem knnFlat_mem {ann : ANN} {X Y : Mat} {C : Option Mat} {n : Nat} {u : Bool}
    {rs nj : Nat} (hv : knnValid ann X Y C n u rs nj) {s : String}
    (hs : s ∈ knnFlat ann X Y C n u rs nj) :
    s ∈ labelGroups (u || C.isNone) C.isSome := by
  unfold knnFlat at hs
  obtain ⟨i, hi, rfl⟩ := List.mem_map.mp hs
  have hlt : i < (knnRunLabels X Y C u).length := by
    have := List.all_eq_true.mp hv i hi
    exact of_decide_eq_true this
  rw [List.getD_eq_getElem _ _ hlt]
  exact knnLabels_mem (List.getElem_mem hlt)

theorem sum_map_ite_zero (a : String) (gs : List String) (ha : a ∉ gs) :
    (gs.map (fun g => if a = g then (1 : ℕ) else 0)).sum = 0 := by
  induction gs with
  | nil => rfl
  | cons b gs ih =>
      have hab : a ≠ b := fun h => ha (h ▸ List.mem_cons_self b gs)
      simp only [List.map_cons, List.sum_cons, if_neg hab,
        ih (fun h => ha (List.mem_cons_of_mem b h)), Nat.zero_add]

theorem sum_map_ite_one (a : String) (gs : List String) (hnd : gs.Nodup)
    (ha : a ∈ gs) :
    (gs.map (fun g => if a = g then (1 : ℕ) else 0)).sum = 1 := by
  induction gs with
  | nil => cases ha
  | cons b gs ih =>
      by_cases h : a = b
      · subst h
        have : a ∉ gs := (List.nodup_cons.mp hnd).1
        simp only [List.map_cons, List.sum_cons, if_pos rfl, sum_map_ite_zero a gs this]
        simp
      · rcases List.mem_cons.mp ha with h' | h'
        · exact absurd h' h
        · simp only [List.map_cons, List.sum_cons, if_neg h,
            ih (List.nodup_cons.mp hnd).2 h', Nat.zero_add]

theorem sum_map_addN (f h : String → ℕ) (gs : List String) :
    (gs.map (fun g => f g + h g)).sum = (gs.map f).sum + (gs.map h).sum := by
  induction gs with
  | nil => rfl
  | cons b gs ih =>
      simp only [List.map_cons, List.sum_cons, ih]
      omega

theorem sum_map_count (gs : List String) (hnd : gs.Nodup) :
    ∀ l : List String, (∀ s ∈ l, s ∈ gs) →
      (gs.map (fun g => l.count g)).sum = l.length := by
  intro l
  induction l with
  | nil => intro _; simp
  | cons a l ih =>
      intro hsub
      have step : (gs.map (fun g => (a :: l).count g)).sum
          = (gs.map (fun g => l.count g + if a = g then 1 else 0)).sum := by
        refine congrArg _ (List.map_congr_left ?_)
        intro g _
        rw [List.count_cons]
        by_cases h : g = a
        · subst h
          simp
        · have h' : ¬ a = g := fun hh => h hh.symm
          simp [h, h']
      rw [step, sum_map_addN (fun g => l.count g) (fun g => if a = g then 1 else 0) gs,
        ih (fun s hs => hsub s (List.mem_cons_of_mem a hs)),
        sum_map_ite_one a gs hnd (hsub a (List.mem_cons_self a l))]
      simp

theorem sum_map_castQ (f : String → ℕ) (gs : List String) :
    (gs.map (fun g => (f g : ℚ))).sum = ((gs.map f).sum : ℚ) := by
  induction gs with
  | nil => simp
  | cons b gs ih => simp [ih]

theorem sum_map_divQ (f : String → ℚ) (r : ℚ) (gs : List String) :
    (gs.map (fun g => f g / r)).sum = (gs.map f).sum / r := by
  induction gs with
  | nil => simp
  | cons b gs ih => simp [ih, add_div]

/-- Characterization of a successful `compare_knn` run: the returned dict maps
each group of `labelGroups` (in order) to its normalized neighbor count. -/
theorem compare_knn_ok_char (ann : ANN) (X Y : Mat) (C : Option Mat)
    (n : Nat) (u : Bool) (rs nj : Nat)
    (hsh : knnShape X Y C) (hv : knnValid ann X Y C n u rs nj) :
    compare_knn ann X Y C n u rs nj =
      .ok ((labelGroups (u || C.isNone) C.isSome).map
        (fun g => (g, ((knnFlat ann X Y C n u rs nj).count g : ℚ)
          / (knnFlat ann X Y C n u rs nj).length))) := by
  unfold compare_knn
  rw [if_pos hsh, if_pos hv]
  simp only []
  congr 1
  have hchar := foldl_updDict_char
    (fun g => ((knnFlat ann X Y C n u rs nj).count g : ℚ)
      / (knnFlat ann X Y C n u rs nj).length)
    (labelGroups (u || C.isNone) C.isSome)
    (npUniqueSorted (knnFlat ann X Y C n u rs nj))
    (fun _ => 0)
    (fun g hg => by
      refine knnFlat_mem hv ?_
      have : g ∈ (knnFlat ann X Y C n u rs nj).dedup :=
        (List.mem_insertionSort (α := String) pyLe).mp hg
      exact List.mem_dedup.mp this)
  rw [hchar]
  refine List.map_congr_left ?_
  intro g _
  by_cases h : g ∈ npUniqueSorted (knnFlat ann X Y C n u rs nj)
  · rw [if_pos h]
  · rw [if_neg h]
    have hg0 : (knnFlat ann X Y C n u rs nj).count g = 0 := by
      rw [List.count_eq_zero]
      intro hmem
      exact h ((List.mem_insertionSort (α := String) pyLe).mpr
        (List.mem_dedup.mpr hmem))
    rw [hg0]
    simp

/-- C2: with `C = None` the returned mapping has key list exactly
`["comp", "siml"]`; with `C` supplied and `use_Y_knn = False`, exactly
`["comp", "ctrl"]`.  In both cases the values sum to `1.0`, and a group with
no neighbor hits is reported with value `0.0` rather than omitted.  The
hypotheses are the external ANN library's contract: neighbor indices are in
range and at least one neighbor is returned. -/
theorem compare_knn_key_sets_and_sum
    (ann : ANN) (X Y c : Mat) (n rs nj : Nat) (u : Bool)
    (hc1 : X.ncols = Y.ncols)
    (hc2 : X.ncols = c.ncols)
    (hv1 : knnValid ann X Y none n u rs nj)
    (hv2 : knnValid ann X Y (some c) n false rs nj)
    (hne1 : knnFlat ann X Y none n u rs nj ≠ [])
    (hne2 : knnFlat ann X Y (some c) n false rs nj ≠ []) :
    (∃ d, compare_knn ann X Y none n u rs nj = .ok d ∧
      d.map Prod.fst = ["comp", "siml"] ∧
      (d.map Prod.snd).sum = 1 ∧
      ∀ g ∈ d.map Prod.fst,
        (knnFlat ann X Y none n u rs nj).count g = 0 → (g, (0 : ℚ)) ∈ d) ∧
    (∃ d, compare_knn ann X Y (some c) n false rs nj = .ok d ∧
      d.map Prod.fst = ["comp", "ctrl"] ∧
      (d.map Prod.snd).sum = 1 ∧
      ∀ g ∈ d.map Prod.fst,
        (knnFlat ann X Y (some c) n false rs nj).count g = 0 → (g, (0 : ℚ)) ∈ d) := by
  constructor
  · refine ⟨_, compare_knn_ok_char ann X Y none n u rs nj ⟨hc1, by simp⟩ hv1, ?_, ?_, ?_⟩
    · simp [labelGroups]
    · rw [List.map_map]
      have hgroups : labelGroups (u || Option.isNone (α := Mat) none)
          (Option.isSome (α := Mat) none) = ["comp", "siml"] := by
        simp [labelGroups]
      rw [hgroups]
      have hsub : ∀ s ∈ knnFlat ann X Y none n u rs nj, s ∈ (["comp", "siml"] : List String) := by
        intro s hs
        have := knnFlat_mem hv1 hs
        simpa [labelGroups] using this
      have hsum := sum_map_count ["comp", "siml"] (by decide)
        (knnFlat ann X Y none n u rs nj) hsub
      have hlen : 0 < (knnFlat ann X Y none n u rs nj).length :=
        List.length_pos.mpr hne1
      calc ((["comp", "siml"] : List String).map
              ((fun p => p.2) ∘ fun g => (g, ((knnFlat ann X Y none n u rs nj).count g : ℚ)
                / (knnFlat ann X Y none n u rs nj).length))).sum
          = ((["comp", "siml"] : List String).map
              (fun g => ((knnFlat ann X Y none n u rs nj).count g : ℚ)
                / (knnFlat ann X Y none n u rs nj).length)).sum := rfl
        _ = ((["comp", "siml"] : List String).map
              (fun g => ((knnFlat ann X Y none n u rs nj).count g : ℚ))).sum
                / (knnFlat ann X Y none n u rs nj).length := sum_map_divQ _ _ _
        _ = 1 := by
              rw [sum_map_castQ, hsum]
              exact div_self (by positivity)
    · intro g hg hg0
      have hgg : g ∈ labelGroups (u || Option.isNone (α := Mat) none)
          (Option.isSome (α := Mat) none) := by
        simpa using hg
      refine List.mem_map.mpr ⟨g, hgg, ?_⟩
      rw [hg0]
      simp
  · refine ⟨_, compare_knn_ok_char ann X Y (some c) n false rs nj
      ⟨hc1, by simpa using hc2⟩ hv2, ?_, ?_, ?_⟩
    · simp [labelGroups]
    · rw [List.map_map]
      have hgroups : labelGroups (false || Option.isNone (some c))
          (Option.isSome (some c)) = ["comp", "ctrl"] := by
        simp [labelGroups]
      rw [hgroups]
      have hsub : ∀ s ∈ knnFlat ann X Y (some c) n false rs nj,
          s ∈ (["comp", "ctrl"] : List String) := by
        intro s hs
        have := knnFlat_mem hv2 hs
        simpa [labelGroups] using this
      have hsum := sum_map_count ["comp", "ctrl"] (by decide)
        (knnFlat ann X Y (some c) n false rs nj) hsub
      have hlen : 0 < (knnFlat ann X Y (some c) n false rs nj).length :=
        List.length_pos.mpr hne2
      calc ((["comp", "ctrl"] : List String).map
              ((fun p => p.2) ∘ fun g => (g, ((knnFlat ann X Y (some c) n false rs nj).count g : ℚ)
                / (knnFlat ann X Y (some c) n false rs nj).length))).sum
          = ((["comp", "ctrl"] : List String).map
              (fun g => ((knnFlat ann X Y (some c) n false rs nj).count g : ℚ)
                / (knnFlat ann X Y (some c) n false rs nj).length)).sum := rfl
        _ = ((["comp", "ctrl"] : List String).map
              (fun g => ((knnFlat ann X Y (some c) n false rs nj).count g : ℚ))).sum
                / (knnFlat ann X Y (some c) n false rs nj).length := sum_map_divQ _ _ _
        _ = 1 := by
              rw [sum_map_castQ, hsum]
              exact div_self (by positivity)
    · intro g hg hg0
      have hgg : g ∈ labelGroups (false || Option.isNone (some c))
          (Option.isSome (some c)) := by
        simpa using hg
      refine List.mem_map.mpr ⟨g, hgg, ?_⟩
      rw [hg0]
      simp

/-- A concrete ANN engine used in witnesses: every query returns the single
neighbor `0`. -/
def annZero : ANN where
  query := fun _ _ _ _ _ _ => [[0]]

/-- Witness for C2 at the concrete ANN engine and concrete 1×1 matrices. -/
theorem compare_knn_key_sets_and_sum_witness :
    (∃ d, compare_knn annZero (oneMat 1 1) (zeroMat 1 1) none 1 false 0 0 = .ok d ∧
      d.map Prod.fst = ["comp", "siml"] ∧
      (d.map Prod.snd).sum = 1 ∧
      ∀ g ∈ d.map Prod.fst,
        (knnFlat annZero (oneMat 1 1) (zeroMat 1 1) none 1 false 0 0).count g = 0 →
          (g, (0 : ℚ)) ∈ d) ∧
    (∃ d, compare_knn annZero (oneMat 1 1) (zeroMat 1 1) (some (oneMat 1 1)) 1 false 0 0
        = .ok d ∧
      d.map Prod.fst = ["comp", "ctrl"] ∧
      (d.map Prod.snd).sum = 1 ∧
      ∀ g ∈ d.map Prod.fst,
        (knnFlat annZero (oneMat 1 1) (zeroMat 1 1) (some (oneMat 1 1)) 1 false 0 0).count g
            = 0 → (g, (0 : ℚ)) ∈ d) :=
  compare_knn_key_sets_and_sum annZero (oneMat 1 1) (zeroMat 1 1) (oneMat 1 1)
    1 0 0 false rfl rfl (by decide) (by decide) (by decide) (by decide)

/-- C9: when no control is supplied, `compare_knn` ignores `use_Y_knn`
entirely: the reference cloud, its labels and the returned mapping are
identical for both flag values. -/
theorem compare_knn_use_Y_knn_irrelevant_without_control
    (ann : ANN) (X Y : Mat) (n_neighbors random_state n_jobs : Nat)
    (u₁ u₂ : Bool) :
    compare_knn ann X Y none n_neighbors u₁ random_state n_jobs =
      compare_knn ann X Y none n_neighbors u₂ random_state n_jobs := by
  simp [compare_knn, knnFlat, knnValid, knnIdxFlat, knnRunLabels, knnIndexData,
    knnNC, Bool.or_true]

/-! ## compare_de (`_metrics_3g.py:22-66`) -/

/-- The record produced by one `scanpy.tl.rank_genes_groups` run for the
"comp" group (an external statistics routine, abstracted): feature names in
decreasing significance order, with the aligned scores and adjusted p-values
(`names[i]`, `scores[i]`, `pvals_adj[i]` describe the same feature). -/
structure DERes where
  names : List String
  scores : List ℚ
  pvals_adj : List ℚ

/-- The four summary metrics returned by `compare_de`. -/
structure DEMetrics where
  shared_top_genes : ℚ
  scores_corr : ℚ
  pvals_adj_corr : ℚ
  scores_ranks_corr : ℚ
  deriving DecidableEq

/-- AnnData's default var names for `n` unnamed features: `str(0) .. str(n-1)`,
in creation order — this is the control's fixed feature ordering (the index of
the `results` data frame). -/
def var_names (n : Nat) : List String :=
  (List.range n).map (fun i => toString i)

instance leByKeyDec (f : Nat → String) : DecidableRel (fun i j => pyLe (f i) (f j)) :=
  fun i j => pyLeDec (f i) (f j)

/-- `np.argsort` over an array of strings (line 53): the indices `0..n-1`
reordered so that the indexed names are in nondecreasing lexicographic
order.  Ties cannot arise on distinct names. -/
def argsort (names : List String) : List Nat :=
  List.insertionSort (fun i j => pyLe (names.getD i "") (names.getD j ""))
    (List.range names.length)

/-- numpy fancy indexing `xs[idx]` for rationals (the `compare_de` loop only
ever gathers with in-range indices produced by `argsort`). -/
def gatherQ (xs : List ℚ) (idx : List Nat) : List ℚ :=
  idx.map (fun i => xs.getD i 0)

/-- The feature name whose `(score, pval_adj, rank)` record lands at each
position of the `results` data frame (lines 53-56): position `i` of every
re-sorted column holds the record of feature `names[srt_idx[i]]`. -/
def referencedNames (names : List String) : List String :=
  (argsort names).map (fun i => names.getD i "")

/-- Embedding of `compare_de` (`_metrics_3g.py:22-66`): assert equal column
counts, clamp `shared_top` to the feature count, run the abstracted
differential-expression ranking of each of `X`, `Y` against `C`, re-sort each
result by `argsort` of its name array, and compute the four summary metrics.
The pandas correlation calls are abstracted as `corr method xs ys`; the
`shared_top_genes` division is by the clamped `shared_top` (a Python
`ZeroDivisionError` when it is `0`, which requires a zero feature count). -/
def compare_de (de : Mat → Mat → DERes) (corr : String → List ℚ → List ℚ → ℚ)
    (X Y C : Mat) (shared_top : Nat) : Except PyErr DEMetrics :=
  if X.ncols = Y.ncols ∧ Y.ncols = C.ncols then
    let n_vars := X.ncols
    let shared_top := min shared_top n_vars
    let vars_ranks := (List.range n_vars).map (fun i => ((i + 1 : Nat) : ℚ))
    let rx := de X C
    let ry := de Y C
    let sx := argsort rx.names
    let sy := argsort ry.names
    if shared_top = 0 then .error .zeroDivisionError
    else
      .ok {
        shared_top_genes :=
          (((rx.names.take shared_top).dedup.filter
              (fun s => decide (s ∈ ry.names.take shared_top))).length : ℚ)
            / shared_top,
        scores_corr := corr "pearson" (gatherQ rx.scores sx) (gatherQ ry.scores sy),
        pvals_adj_corr :=
          corr "pearson" (gatherQ rx.pvals_adj sx) (gatherQ ry.pvals_adj sy),
        scores_ranks_corr :=
          corr "spearman" (gatherQ vars_ranks sx) (gatherQ vars_ranks sy) }
  else
    .error (.assertionError none)

/-- A constant differential-expression oracle used in witnesses. -/
def deConst : Mat → Mat → DERes :=
  fun _ _ => { names := ["0"], scores := [0], pvals_adj := [0] }

/-- A constant correlation oracle used in witnesses. -/
def corrConst : String → List ℚ → List ℚ → ℚ :=
  fun _ _ _ => 0

/-- C5: `compare_de` does not fail when `shared_top` exceeds the feature
count: it silently clamps it to `min shared_top n`, and the returned
`shared_top_genes` — the size of the intersection of the two top-name sets
divided by the clamped `shared_top` — lies in `[0, 1]`. -/
theorem compare_de_shared_top_in_unit_interval
    (de : Mat → Mat → DERes) (corr : String → List ℚ → List ℚ → ℚ)
    (X Y C : Mat) (shared_top : Nat)
    (hc1 : X.ncols = Y.ncols) (hc2 : Y.ncols = C.ncols)
    (hn : 1 ≤ X.ncols) (hs : 1 ≤ shared_top) :
    ∃ res, compare_de de corr X Y C shared_top = .ok res ∧
      res.shared_top_genes =
        ((((de X C).names.take (min shared_top X.ncols)).dedup.filter
            (fun s => decide (s ∈ (de Y C).names.take (min shared_top X.ncols)))).length : ℚ)
          / (min shared_top X.ncols : Nat) ∧
      0 ≤ res.shared_top_genes ∧ res.shared_top_genes ≤ 1 := by
  have hmin : 0 < min shared_top X.ncols := lt_min_iff.mpr ⟨hs, hn⟩
  have hlen : (((de X C).names.take (min shared_top X.ncols)).dedup.filter
      (fun s => decide (s ∈ (de Y C).names.take (min shared_top X.ncols)))).length
        ≤ min shared_top X.ncols := by
    calc (((de X C).names.take (min shared_top X.ncols)).dedup.filter
          (fun s => decide (s ∈ (de Y C).names.take (min shared_top X.ncols)))).length
        ≤ ((de X C).names.take (min shared_top X.ncols)).dedup.length :=
          List.length_filter_le _ _
      _ ≤ ((de X C).names.take (min shared_top X.ncols)).length :=
          (List.dedup_sublist _).length_le
      _ ≤ min shared_top X.ncols := by
          rw [List.length_take]
          exact min_le_left _ _
  have heq : compare_de de corr X Y C shared_top = .ok
      { shared_top_genes := ((((de X C).names.take (min shared_top X.ncols)).dedup.filter
            (fun s => decide (s ∈ (de Y C).names.take (min shared_top X.ncols)))).length : ℚ)
          / (min shared_top X.ncols : Nat),
        scores_corr := corr "pearson" (gatherQ (de X C).scores (argsort (de X C).names))
          (gatherQ (de Y C).scores (argsort (de Y C).names)),
        pvals_adj_corr := corr "pearson"
          (gatherQ (de X C).pvals_adj (argsort (de X C).names))
          (gatherQ (de Y C).pvals_adj (argsort (de Y C).names)),
        scores_ranks_corr := corr "spearman"
          (gatherQ ((List.range X.ncols).map (fun i => ((i + 1 : Nat) : ℚ)))
            (argsort (de X C).names))
          (gatherQ ((List.range X.ncols).map (fun i => ((i + 1 : Nat) : ℚ)))
            (argsort (de Y C).names)) } := by
    unfold compare_de
    rw [if_pos ⟨hc1, hc2⟩]
    simp only []
    rw [if_neg hmin.ne']
  refine ⟨_, heq, rfl, ?_, ?_⟩
  · show (0 : ℚ) ≤ ((((de X C).names.take (min shared_top X.ncols)).dedup.filter
        (fun s => decide (s ∈ (de Y C).names.take (min shared_top X.ncols)))).length : ℚ)
      / (min shared_top X.ncols : Nat)
    positivity
  · show ((((de X C).names.take (min shared_top X.ncols)).dedup.filter
        (fun s => decide (s ∈ (de Y C).names.take (min shared_top X.ncols)))).length : ℚ)
      / (min shared_top X.ncols : Nat) ≤ 1
    rw [div_le_one (by exact_mod_cast hmin)]
    exact_mod_cast hlen

/-- Witness for C5: one feature, `shared_top = 5` silently clamped to `1`. -/
theorem compare_de_shared_top_in_unit_interval_witness :
    ∃ res, compare_de deConst corrConst (zeroMat 1 1) (zeroMat 1 1) (zeroMat 1 1) 5
        = .ok res ∧
      res.shared_top_genes =
        ((((deConst (zeroMat 1 1) (zeroMat 1 1)).names.take (min 5 (zeroMat 1 1).ncols)).dedup.filter
            (fun s => decide (s ∈ (deConst (zeroMat 1 1) (zeroMat 1 1)).names.take
              (min 5 (zeroMat 1 1).ncols)))).length : ℚ)
          / (min 5 (zeroMat 1 1).ncols : Nat) ∧
      0 ≤ res.shared_top_genes ∧ res.shared_top_genes ≤ 1 :=
  compare_de_shared_top_in_unit_interval deConst corrConst
    (zeroMat 1 1) (zeroMat 1 1) (zeroMat 1 1) 5 rfl rfl (by decide) (by decide)

theorem map_orderedInsert_le (f : Nat → String) (a : Nat) (l : List Nat) :
    (List.orderedInsert (fun i j => pyLe (f i) (f j)) a l).map f
      = List.orderedInsert pyLe (f a) (l.map f) := by
  induction l with
  | nil => rfl
  | cons b l ih =>
      simp only [List.orderedInsert, List.map_cons]
      by_cases h : pyLe (f a) (f b)
      · rw [if_pos h, if_pos h]
        rfl
      · rw [if_neg h, if_neg h, List.map_cons, ih]

theorem map_insertionSort_le (f : Nat → String) (l : List Nat) :
    (List.insertionSort (fun i j => pyLe (f i) (f j)) l).map f
      = List.insertionSort pyLe (l.map f) := by
  induction l with
  | nil => rfl
  | cons a l ih =>
      simp only [List.insertionSort]
      rw [map_orderedInsert_le, ih]

theorem map_getD_range {α : Type} (d : α) (l : List α) :
    (List.range l.length).map (fun i => l.getD i d) = l := by
  induction l with
  | nil => rfl
  | cons a l ih =>
      rw [List.length_cons, List.range_succ_eq_map, List.map_cons, List.map_map]
      have hcomp : ((fun i => (a :: l).getD i d) ∘ Nat.succ) = (fun i => l.getD i d) :=
        funext fun i => List.getD_cons_succ
      rw [List.getD_cons_zero, hcomp, ih]

/-- The re-sorted columns of `compare_de`'s results table are the feature
names in lexicographic order. -/
theorem referencedNames_eq_sort (names : List String) :
    referencedNames names = List.insertionSort pyLe names := by
  unfold referencedNames argsort
  rw [map_insertionSort_le, map_getD_range]

/-- C4 (amended): in `compare_de`, the X-derived and Y-derived per-feature
series are each re-sorted into the lexicographic order of the feature names —
not, in general, into the control's creation ordering `var_names n` — and
since both runs rank the same feature set, the two orderings coincide: at
every position the X-derived and Y-derived values refer to the same feature
of `C`. -/
theorem compare_de_series_alignment (n : Nat) (names_x names_y : List String)
    (hx : names_x.Perm (var_names n)) (hy : names_y.Perm (var_names n)) :
    referencedNames names_x = referencedNames names_y ∧
    List.Sorted pyLe (referencedNames names_x) ∧
    (referencedNames names_x).Perm (var_names n) := by
  have key : ∀ names : List String, names.Perm (var_names n) →
      referencedNames names = List.insertionSort pyLe (var_names n) := by
    intro names h
    rw [referencedNames_eq_sort]
    refine List.eq_of_perm_of_sorted ?_ (List.sorted_insertionSort _ _)
      (List.sorted_insertionSort _ _)
    exact (List.perm_insertionSort _ _).trans
      (h.trans (List.perm_insertionSort _ _).symm)
  refine ⟨(key names_x hx).trans (key names_y hy).symm, ?_, ?_⟩
  · rw [key names_x hx]
    exact List.sorted_insertionSort _ _
  · rw [key names_x hx]
    exact List.perm_insertionSort _ _

/-- Witness for C4 at two concrete rankings of three features. -/
theorem compare_de_series_alignment_witness :
    referencedNames ["1", "0", "2"] = referencedNames ["2", "1", "0"] ∧
    List.Sorted pyLe (referencedNames ["1", "0", "2"]) ∧
    (referencedNames ["1", "0", "2"]).Perm (var_names 3) :=
  compare_de_series_alignment 3 ["1", "0", "2"] ["2", "1", "0"]
    (by decide) (by decide)

/-- Counterexample to C4 as stated: with 11 default-named features the
re-sorted series do not follow the control's fixed feature ordering
`["0", "1", ..., "10"]` — `np.argsort` sorts the name strings
lexicographically, which puts feature `"10"` at position 2 — even when the
differential-expression routine returns the names in exactly the control's
order. -/
theorem compare_de_series_alignment_counterexample :
    referencedNames (var_names 11) ≠ var_names 11 ∧
    (var_names 11).Perm (var_names 11) := by
  constructor
  · decide
  · exact List.Perm.refl _

/-! ## Shape assertions of compare_de / compare_class / compare_knn (C6) -/

/-- C6 (amended): each of `compare_de`, `compare_class` and `compare_knn`
fails — before any other computation, for every oracle in place of the
external libraries (for `compare_knn`, before any index construction) —
exactly when the column counts of its supplied inputs are not all equal; the
failure is a bare `AssertionError` carrying no message (the source uses plain
`assert` statements), not an error with a descriptive message. -/
theorem compare_fns_bare_assert_iff_shape_mismatch (X Y C : Mat) :
    (∀ (de : Mat → Mat → DERes) (corr : String → List ℚ → List ℚ → ℚ) (st : Nat),
      ((∃ m, compare_de de corr X Y C st = .error (.assertionError m)) ↔
        ¬(X.ncols = Y.ncols ∧ Y.ncols = C.ncols)) ∧
      (¬(X.ncols = Y.ncols ∧ Y.ncols = C.ncols) →
        compare_de de corr X Y C st = .error (.assertionError none))) ∧
    (∀ (F : Type) (clf : Classifier F),
      ((∃ m, compare_class clf X Y C = .error (.assertionError m)) ↔
        ¬(X.ncols = Y.ncols ∧ Y.ncols = C.ncols)) ∧
      (¬(X.ncols = Y.ncols ∧ Y.ncols = C.ncols) →
        compare_class clf X Y C = .error (.assertionError none))) ∧
    (∀ (ann : ANN) (Copt : Option Mat) (n rs nj : Nat) (u : Bool),
      ((∃ m, compare_knn ann X Y Copt n u rs nj = .error (.assertionError m)) ↔
        ¬ knnShape X Y Copt) ∧
      (¬ knnShape X Y Copt →
        compare_knn ann X Y Copt n u rs nj = .error (.assertionError none))) := by
  refine ⟨?_, ?_, ?_⟩
  · intro de corr st
    by_cases h : X.ncols = Y.ncols ∧ Y.ncols = C.ncols
    · refine ⟨⟨?_, fun hn => absurd h hn⟩, fun hn => absurd h hn⟩
      rintro ⟨m, hm⟩
      unfold compare_de at hm
      rw [if_pos h] at hm
      simp only [] at hm
      split at hm <;> simp at hm
    · exact ⟨⟨fun _ => h, fun _ => ⟨none, by unfold compare_de; rw [if_neg h]⟩⟩,
        fun _ => by unfold compare_de; rw [if_neg h]⟩
  · intro F clf
    by_cases h : X.ncols = Y.ncols ∧ Y.ncols = C.ncols
    · refine ⟨⟨?_, fun hn => absurd h hn⟩, fun hn => absurd h hn⟩
      rintro ⟨m, hm⟩
      unfold compare_class at hm
      rw [if_pos h] at hm
      simp only [] at hm
      revert hm
      unfold pydiv
      split <;> simp [Except.map]
    · exact ⟨⟨fun _ => h, fun _ => ⟨none, by unfold compare_class; rw [if_neg h]⟩⟩,
        fun _ => by unfold compare_class; rw [if_neg h]⟩
  · intro ann Copt n rs nj u
    by_cases h : knnShape X Y Copt
    · refine ⟨⟨?_, fun hn => absurd h hn⟩, fun hn => absurd h hn⟩
      rintro ⟨m, hm⟩
      unfold compare_knn at hm
      rw [if_pos h] at hm
      split at hm <;> simp at hm
    · exact ⟨⟨fun _ => h, fun _ => ⟨none, by unfold compare_knn; rw [if_neg h]⟩⟩,
        fun _ => by unfold compare_knn; rw [if_neg h]⟩

/-- Counterexample to C6 as stated: on a concrete column-count mismatch each
routine raises an `AssertionError` that carries no message at all — the
claimed "descriptive message naming the offending argument" does not exist,
because the source's shape checks are bare `assert` statements. -/
theorem compare_fns_bare_assert_counterexample :
    compare_de deConst corrConst (zeroMat 1 1) (zeroMat 1 2) (zeroMat 1 1) 100
      = .error (.assertionError none) ∧
    compare_class constClf (zeroMat 1 1) (zeroMat 1 2) (zeroMat 1 1)
      = .error (.assertionError none) ∧
    compare_knn annZero (zeroMat 1 1) (zeroMat 1 2) none 1 false 0 0
      = .error (.assertionError none) := by
  refine ⟨rfl, rfl, rfl⟩

/-- Witness for C6: a mismatched input yields the bare assertion failure, and
a matched input yields no assertion failure. -/
theorem compare_fns_bare_assert_iff_shape_mismatch_witness :
    compare_de deConst corrConst (zeroMat 1 2) (zeroMat 1 1) (zeroMat 1 1) 100
      = .error (.assertionError none) ∧
    ¬(∃ m, compare_knn annZero (oneMat 1 1) (zeroMat 1 1) none 1 false 0 0
        = .error (.assertionError m)) := by
  constructor
  · exact ((compare_fns_bare_assert_iff_shape_mismatch (zeroMat 1 2) (zeroMat 1 1)
      (zeroMat 1 1)).1 deConst corrConst 100).2 (by decide)
  · intro hex
    have h := (((compare_fns_bare_assert_iff_shape_mismatch (oneMat 1 1) (zeroMat 1 1)
      (oneMat 1 1)).2.2 annZero none 1 0 0 false).1).mp hex
    exact h (by decide)

/-! ## The Distance constructor contract (C8) -/

/-- Modelled from the spec: the configuration state of a constructed
`Distance` (the class lives in `pertpy/tools/_distances/_distances.py`, which
is not included under `src/`; only its tests are). -/
structure DistanceCfg where
  metric : String
  layer_key : Option String
  obsm_key : Option String

/-- Modelled from the spec: the `Distance` constructor takes a metric
identifier "plus either an embedding-representation selector or a raw-layer
selector — exactly one, never both (violating this fails with a configuration
error)"; the test suite (`test_mutually_exclusive_keys`) pins the error type
to `ValueError` when both `layer_key` and `obsm_key` are supplied. -/
def Distance_init (metric : String) (layer_key obsm_key : Option String) :
    Except PyErr DistanceCfg :=
  if layer_key.isSome ∧ obsm_key.isSome then
    .error (.valueError "Cannot use 'layer_key' and 'obsm_key' at the same time.")
  else
    .ok { metric := metric, layer_key := layer_key, obsm_key := obsm_key }

/-- C8: constructing a `Distance` with both a raw-layer selector and an
embedding-representation selector supplied simultaneously fails with a
`ValueError`, for every metric name. -/
theorem Distance_init_mutually_exclusive (metric lk ek : String) :
    ∃ s, Distance_init metric (some lk) (some ek) = .error (.valueError s) :=
  ⟨"Cannot use 'layer_key' and 'obsm_key' at the same time.", by
    unfold Distance_init
    rw [if_pos ⟨rfl, rfl⟩]⟩

end PertpyMetrics
